import Mathlib

/-!
# Verification of the DynamoJS `Jukebox` audio engine

A shallow embedding of `src/Core/Jukebox/Jukebox.ts` (the camelCase revision)
together with the record types of `AudioTrack.ts` and `AudioStream.ts`.

Modelling conventions:
* JS `number` fields (volumes, times, gains, coordinates) become `ℚ`.
* The Web Audio objects are modelled by the state the engine reads and
  writes through them: a `GainNode`'s `gain` parameter is its last pinned
  `value` together with the list of still-scheduled linear ramps
  `(target, endTime)`; an `HTMLAudioElement` is its `src` and a
  `playing` flag.
* Values the code *reads* from the audio subsystem (the current sampled
  gain value, the media `ended` flag, `context.currentTime`) are genuine
  inputs of the surrounding call and are passed as explicit parameters.
* `Map<string, _>` becomes an association list with JS `Map.set`
  replace-or-append semantics (`mapSet` / `mapGet` / `mapHas`).
* A method that can `throw` returns the (possibly unchanged) state paired
  with an `Except`; the TS methods throw before mutating anything, and the
  embedding mirrors that order.
-/

/-- 2D vector (`Vec2D` of `src/Math`); only `x`/`y` are consumed here. -/
structure Vec2D where
  x : ℚ
  y : ℚ
deriving DecidableEq

/-- State of a `GainNode.gain` `AudioParam`: the last explicitly pinned
`value` and the pending linear ramps `(target, endTime)` scheduled by
`linearRampToValueAtTime`. A fresh gain node has value 1 and no ramps. -/
structure GainParam where
  value : ℚ
  ramps : List (ℚ × ℚ)
deriving DecidableEq

/-- Fresh `createGain()` node parameter. -/
def GainParam.init : GainParam := { value := 1, ramps := [] }

/-- `gain.value = v` (assignment pins the instantaneous value). -/
def GainParam.setValue (g : GainParam) (v : ℚ) : GainParam :=
  { g with value := v }

/-- `gain.cancelScheduledValues(t)`: drop all pending ramps. -/
def GainParam.cancelScheduledValues (g : GainParam) : GainParam :=
  { g with ramps := [] }

/-- `gain.linearRampToValueAtTime(target, endTime)`: append a ramp. -/
def GainParam.linearRampToValueAtTime (g : GainParam) (target endTime : ℚ) : GainParam :=
  { g with ramps := g.ramps ++ [(target, endTime)] }

/-- The slice of `HTMLAudioElement` state the engine writes: the resolved
source URL and whether `play()` (vs `pause()`) was last issued. The
`ended` flag is read-only for the engine and is passed to `update` as an
observation. -/
structure MediaState where
  src : String
  playing : Bool
deriving DecidableEq

/-- `AudioTrackSettings` of `AudioTrack.ts`: the caller-adjustable part. -/
structure AudioTrackSettings where
  volume : ℚ
  position : Vec2D
deriving DecidableEq

/-- `AudioTrack` of `AudioTrack.ts`. `pannerPos` is the last position
pushed into the panner node (`positionX`/`positionZ`); a fresh panner
sits at the origin. `pannerMaxDistance` records the falloff parameter
copied from the jukebox at enqueue time. -/
structure AudioTrack where
  media : MediaState
  loops : Int
  fadein : ℚ
  start : Bool
  skipped : Bool
  pannerMaxDistance : ℚ
  pannerPos : Vec2D
  gainNode : GainParam
  settings : AudioTrackSettings
deriving DecidableEq

/-- `AudioStream` of `AudioStream.ts`. -/
structure AudioStream where
  volume : ℚ
  tracks : List AudioTrack
  isPlaying : Bool
deriving DecidableEq

/-- Opaque decoded audio buffer handle. -/
structure AudioBuffer where
  id : Nat
deriving DecidableEq

/-- JS `Map.get`. -/
def mapGet {α : Type} (m : List (String × α)) (k : String) : Option α :=
  match m with
  | [] => none
  | (k1, v1) :: rest => if k1 = k then some v1 else mapGet rest k

/-- JS `Map.set`: replace the binding in place, else append. -/
def mapSet {α : Type} (m : List (String × α)) (k : String) (v : α) : List (String × α) :=
  match m with
  | [] => [(k, v)]
  | (k1, v1) :: rest => if k1 = k then (k, v) :: rest else (k1, v1) :: mapSet rest k v

/-- JS `Map.has`. -/
def mapHas {α : Type} (m : List (String × α)) (k : String) : Bool :=
  match m with
  | [] => false
  | (k1, _) :: rest => k1 = k || mapHas rest k

/-- The `Jukebox` class state: the static `pathPrefix` (`pathPre` here),
the global `volume`, `maxDistance`, the decoded-sound cache and the
named stream table. -/
structure Jukebox where
  pathPre : String
  volume : ℚ
  maxDistance : ℚ
  sounds : List (String × AudioBuffer)
  streams : List (String × AudioStream)
deriving DecidableEq

/-- `new Jukebox()` (with the class-level path prefix at its default). -/
def Jukebox.init : Jukebox :=
  { pathPre := "", volume := 1, maxDistance := 1000, sounds := [], streams := [] }

/-- `Jukebox.setPathPrefix(p)`. -/
def Jukebox.setPathPre (j : Jukebox) (p : String) : Jukebox :=
  { j with pathPre := p }

/-- The error message thrown by the stream-keyed operations. -/
def streamMissingMsg (stream : String) : String :=
  "\"" ++ stream ++ "\" audio stream does not exist."

/-- The (unreachable) second error message inside `queueStream`. -/
def streamMissingMsg2 (stream : String) : String :=
  "\"" ++ stream ++ "\" stream does not exist."

/-- `createStream(stream)`: unconditionally binds a fresh empty stream. -/
def Jukebox.createStream (j : Jukebox) (stream : String) : Jukebox :=
  { j with streams := mapSet j.streams stream { volume := 1, tracks := [], isPlaying := true } }

/-- `getStream(stream)`: plain `Map.get`, an `Option`, never a throw. -/
def Jukebox.getStream (j : Jukebox) (stream : String) : Option AudioStream :=
  mapGet j.streams stream

/-- `loadSound(url)` resolves `pathPrefix + url` and, when the fetch and
decode complete, stores the buffer under that resolved key. This is the
key the triggered load will write to. -/
def Jukebox.loadSoundKey (j : Jukebox) (url : String) : String :=
  j.pathPre ++ url

/-- Completion of the asynchronous body of `loadSound(url)`:
`sounds.set(fullpath, buffer)` with `fullpath = pathPrefix + url`. -/
def Jukebox.completeLoad (j : Jukebox) (url : String) (buffer : AudioBuffer) : Jukebox :=
  { j with sounds := mapSet j.sounds (j.loadSoundKey url) buffer }

/-- The transient one-shot node graph built by a cache-hitting
`playSound`: source → panner → gain → destination, started at once. -/
structure OneShotGraph where
  buffer : AudioBuffer
  maxDistance : ℚ
  position : Vec2D
  gain : ℚ
  started : Bool
deriving DecidableEq

/-- Outcome of `playSound`: either only a `loadSound(url)` call was
triggered (cache miss; `url` is the argument handed to `loadSound`), or
a node graph was created and started. -/
inductive PlaySoundResult where
  | loadTriggered (url : String)
  | played (graph : OneShotGraph)
deriving DecidableEq

/-- `playSound(url, volume, position)`. On a miss the code calls
`this.loadSound(fullpath)` — note the argument is the *already resolved*
path. On a hit it builds and starts the transient graph with gain
`volume * this.volume`. The jukebox state itself is not changed. -/
def Jukebox.playSound (j : Jukebox) (url : String) (volume : ℚ) (position : Vec2D) :
    PlaySoundResult :=
  let fullpath := j.pathPre ++ url
  match mapGet j.sounds fullpath with
  | none => .loadTriggered fullpath
  | some buffer =>
      .played
        { buffer := buffer
          maxDistance := j.maxDistance
          position := position
          gain := volume * j.volume
          started := true }

/-- `queueStream(stream, url, volume, fadein, loops, position)`: throws
before any mutation when the name is unregistered, else appends a fresh
track and returns its `settings` handle. -/
def Jukebox.queueStream (j : Jukebox) (stream url : String) (volume fadein : ℚ)
    (loops : Int) (position : Vec2D) : Jukebox × Except String AudioTrackSettings :=
  if mapHas j.streams stream = false then
    (j, .error (streamMissingMsg stream))
  else
    let track : AudioTrack :=
      { media := { src := j.pathPre ++ url, playing := false }
        loops := loops
        fadein := fadein
        start := false
        skipped := false
        pannerMaxDistance := j.maxDistance
        pannerPos := { x := 0, y := 0 }
        gainNode := GainParam.init
        settings := { volume := volume, position := position } }
    match mapGet j.streams stream with
    | none => (j, .error (streamMissingMsg2 stream))
    | some s =>
        ({ j with streams := mapSet j.streams stream { s with tracks := s.tracks ++ [track] } },
         .ok track.settings)

/-- `skipStream(stream, fadeout)`. `time` is `context.currentTime` and
`gainSample` the current sampled `gain.value` of the head track's gain
node, both read from the audio subsystem during the call. -/
def Jukebox.skipStream (j : Jukebox) (stream : String) (fadeout time gainSample : ℚ) :
    Jukebox × Except String Unit :=
  match mapGet j.streams stream with
  | none => (j, .error (streamMissingMsg stream))
  | some s =>
      match s.tracks with
      | [] => (j, .ok ())
      | current :: rest =>
          let g :=
            ((current.gainNode.cancelScheduledValues).setValue
                gainSample).linearRampToValueAtTime 0 (time + fadeout)
          ({ j with
              streams :=
                mapSet j.streams stream
                  { s with tracks := { current with skipped := true, gainNode := g } :: rest } },
           .ok ())

/-- `clearStream(stream, fadeout)`: throw if unregistered, else
`skipStream(stream, fadeout)` followed by `tracks.splice(0, tracks.length)`
on the same (aliased) track array. -/
def Jukebox.clearStream (j : Jukebox) (stream : String) (fadeout time gainSample : ℚ) :
    Jukebox × Except String Unit :=
  match mapGet j.streams stream with
  | none => (j, .error (streamMissingMsg stream))
  | some _ =>
      let j1 := (j.skipStream stream fadeout time gainSample).1
      match mapGet j1.streams stream with
      | none => (j1, .ok ())
      | some s1 =>
          ({ j1 with streams := mapSet j1.streams stream { s1 with tracks := [] } }, .ok ())

/-- The per-stream body of `update()`. `gainSample` is the value the
`current.gainNode.gain.value` getter would report at this tick (before
`update` touches it; if the start branch fires, the code has just pinned
the value to 0, so the skip check reads 0). `ended` is the media's
`ended` flag. Note that after the skip branch shifts the queue, the JS
variable `current` still aliases the *removed* track object, so the
natural-end branch below can shift the queue a second time. -/
def updateStreamTick (jvolume time : ℚ) (s : AudioStream) (gainSample : ℚ)
    (ended : Bool) : AudioStream :=
  match s.tracks with
  | [] => s
  | current :: rest =>
      let cur0 := { current with pannerPos := current.settings.position }
      let cur1 :=
        if cur0.start then cur0
        else
          { cur0 with
            gainNode :=
              (cur0.gainNode.setValue 0).linearRampToValueAtTime
                (cur0.settings.volume * jvolume * s.volume) (time + cur0.fadein)
            media := { cur0.media with playing := true }
            start := true }
      let sample : ℚ := if cur0.start then gainSample else 0
      if cur1.skipped = true ∧ sample = 0 then
        -- current.media.pause(); stream.tracks.shift() — then the ending
        -- check runs on the stale `current` and may shift again.
        if ended = true ∧ cur1.loops = 0 then
          { s with tracks := rest.tail }
        else
          { s with tracks := rest }
      else
        if ended then
          if cur1.loops = 0 then
            { s with tracks := rest }
          else
            { s with tracks := { cur1 with start := false, loops := cur1.loops - 1 } :: rest }
        else
          { s with tracks := cur1 :: rest }

/-- `update()`: advance every registered stream, reading each head's
sampled gain value and `ended` flag from the audio subsystem (modelled
as per-stream observation functions keyed by the stream name). -/
def Jukebox.update (j : Jukebox) (time : ℚ) (gainObs : String → ℚ)
    (endedObs : String → Bool) : Jukebox :=
  { j with
      streams :=
        j.streams.map fun p =>
          (p.1, updateStreamTick j.volume time p.2 (gainObs p.1) (endedObs p.1)) }

/-- Assignment to the public `jukebox.volume` field. -/
def Jukebox.setVolume (j : Jukebox) (v : ℚ) : Jukebox :=
  { j with volume := v }

/-- Assignment to a stream's public `volume` field. -/
def AudioStream.setVolume (s : AudioStream) (v : ℚ) : AudioStream :=
  { s with volume := v }

/-! ## Reachability: the stream-facing operation traces -/

/-- A track that has never been at the head of its queue: exactly as
`queueStream` built it (never started, never skipped, media never
played, gain node untouched). -/
def isDormant (tr : AudioTrack) : Prop :=
  tr.start = false ∧ tr.skipped = false ∧ tr.media.playing = false
    ∧ tr.gainNode = GainParam.init

/-- Every track behind the head of the queue is dormant. -/
def streamTailDormant (s : AudioStream) : Prop :=
  ∀ tr ∈ s.tracks.tail, isDormant tr

/-- Every registered stream has a dormant tail. -/
def jukeboxTailDormant (j : Jukebox) : Prop :=
  ∀ p ∈ j.streams, streamTailDormant p.2

/-- One engine call, with the values it reads from the audio subsystem. -/
inductive JukeOp where
  | createStream (stream : String)
  | queueStream (stream url : String) (volume fadein : ℚ) (loops : Int) (position : Vec2D)
  | skipStream (stream : String) (fadeout time gainSample : ℚ)
  | clearStream (stream : String) (fadeout time gainSample : ℚ)
  | update (time : ℚ) (gainObs : String → ℚ) (endedObs : String → Bool)

/-- Execute one call (discarding return values and thrown errors). -/
def JukeOp.apply (j : Jukebox) : JukeOp → Jukebox
  | .createStream s => j.createStream s
  | .queueStream s u v f l p => (j.queueStream s u v f l p).1
  | .skipStream s f t g => (j.skipStream s f t g).1
  | .clearStream s f t g => (j.clearStream s f t g).1
  | .update t go eo => j.update t go eo

/-- Run a whole call sequence. -/
def runOps (ops : List JukeOp) (j : Jukebox) : Jukebox :=
  ops.foldl JukeOp.apply j

/-! ## Concrete states used by counterexamples and witnesses -/

/-- A freshly queued track for URL `u` (as `queueStream` builds it with
volume 1, no fade, no loops, at the origin). -/
def dormantTrack (u : String) : AudioTrack :=
  { media := { src := u, playing := false }
    loops := 0
    fadein := 0
    start := false
    skipped := false
    pannerMaxDistance := 1000
    pannerPos := { x := 0, y := 0 }
    gainNode := GainParam.init
    settings := { volume := 1, position := { x := 0, y := 0 } } }

/-- A head track in steady playback (started, not skipped). -/
def activeTrack : AudioTrack :=
  { media := { src := "a", playing := true }
    loops := 0
    fadein := 2
    start := true
    skipped := false
    pannerMaxDistance := 1000
    pannerPos := { x := 0, y := 0 }
    gainNode := { value := 1, ramps := [] }
    settings := { volume := 1, position := { x := 0, y := 0 } } }

/-- A stream with a playing head and two dormant queued tracks. -/
def streamABC : AudioStream :=
  { volume := 1, tracks := [activeTrack, dormantTrack "b", dormantTrack "c"], isPlaying := true }

/-- A jukebox with `streamABC` registered under the name `"s"`. -/
def jb3 : Jukebox :=
  { Jukebox.init with streams := [("s", streamABC)] }

/-- A skipped head whose fade-out has completed (sampled gain 0) while
its media has also ended, with `loops = 0`. -/
def skipTrack : AudioTrack :=
  { activeTrack with skipped := true, gainNode := { value := 0, ramps := [(0, 1)] } }

/-- A stream holding `skipTrack` plus a dormant, never-started track. -/
def skPairStream : AudioStream :=
  { volume := 1, tracks := [skipTrack, dormantTrack "b"], isPlaying := true }

/-- A jukebox whose static path prefix is nonempty. -/
def c2Jukebox : Jukebox :=
  { Jukebox.init with pathPre := "assets/" }

/-- A registered stream with an empty track queue. -/
def streamEmpty : AudioStream :=
  { volume := 1, tracks := [], isPlaying := true }

/-- A jukebox holding only the empty stream `"s"`. -/
def jEmptyStream : Jukebox :=
  { Jukebox.init with streams := [("s", streamEmpty)] }

/-- A started head track queued with `loops = 2`. -/
def loopTrack : AudioTrack :=
  { activeTrack with loops := 2 }

/-- A stream playing `loopTrack` alone. -/
def loopStream : AudioStream :=
  { volume := 1, tracks := [loopTrack], isPlaying := true }

/-- A stream whose head has not started yet. -/
def startStream : AudioStream :=
  { volume := 1/2, tracks := [dormantTrack "b"], isPlaying := true }

/-- A concrete call sequence: create, queue twice, one update tick. -/
def opsW : List JukeOp :=
  [.createStream "s",
   .queueStream "s" "u" 1 0 2 { x := 0, y := 0 },
   .queueStream "s" "v" 1 0 0 { x := 0, y := 0 },
   .update 0 (fun u => 1) (fun u => false)]

/-- The head of stream `"s"` after running `opsW`: started on the tick. -/
def trackW1 : AudioTrack :=
  { media := { src := "u", playing := true }
    loops := 2
    fadein := 0
    start := true
    skipped := false
    pannerMaxDistance := 1000
    pannerPos := { x := 0, y := 0 }
    gainNode := { value := 0, ramps := [(1 * 1 * 1, 0 + 0)] }
    settings := { volume := 1, position := { x := 0, y := 0 } } }

/-- The still-dormant second track after running `opsW`. -/
def trackW2 : AudioTrack :=
  { media := { src := "v", playing := false }
    loops := 0
    fadein := 0
    start := false
    skipped := false
    pannerMaxDistance := 1000
    pannerPos := { x := 0, y := 0 }
    gainNode := GainParam.init
    settings := { volume := 1, position := { x := 0, y := 0 } } }

/-- Stream `"s"` after running `opsW`. -/
def streamW : AudioStream :=
  { volume := 1, tracks := [trackW1, trackW2], isPlaying := true }

/-! ## Association-list lemmas (JS `Map` semantics) -/

theorem mapGet_mapSet_self {α : Type} (m : List (String × α)) (k : String) (v : α) :
    mapGet (mapSet m k v) k = some v := by
  induction m with
  | nil => simp [mapSet, mapGet]
  | cons p rest ih =>
      obtain ⟨k1, v1⟩ := p
      by_cases h : k1 = k
      · simp [mapSet, mapGet, h]
      · simp [mapSet, mapGet, h, ih]

theorem mapSet_mapSet {α : Type} (m : List (String × α)) (k : String) (v w : α) :
    mapSet (mapSet m k v) k w = mapSet m k w := by
  induction m with
  | nil => simp [mapSet]
  | cons p rest ih =>
      obtain ⟨k1, v1⟩ := p
      by_cases h : k1 = k
      · simp [mapSet, h]
      · simp [mapSet, h, ih]

theorem mapHas_eq_isSome {α : Type} (m : List (String × α)) (k : String) :
    mapHas m k = (mapGet m k).isSome := by
  induction m with
  | nil => simp [mapHas, mapGet]
  | cons p rest ih =>
      obtain ⟨k1, v1⟩ := p
      by_cases h : k1 = k
      · simp [mapHas, mapGet, h]
      · simp [mapHas, mapGet, h, ih]

theorem mapGet_eq_none_of_has_false {α : Type} {m : List (String × α)} {k : String}
    (h : mapHas m k = false) : mapGet m k = none := by
  have h2 := mapHas_eq_isSome m k
  rw [h] at h2
  cases hg : mapGet m k with
  | none => rfl
  | some v => rw [hg] at h2; simp at h2

theorem mem_of_mapGet_eq_some {α : Type} {m : List (String × α)} {k : String} {v : α}
    (h : mapGet m k = some v) : (k, v) ∈ m := by
  induction m with
  | nil => simp [mapGet] at h
  | cons p rest ih =>
      obtain ⟨k1, v1⟩ := p
      by_cases hk : k1 = k
      · simp [mapGet, hk] at h
        subst hk
        subst h
        exact List.mem_cons_self _ _
      · simp [mapGet, hk] at h
        exact List.mem_cons_of_mem _ (ih h)

theorem mem_mapSet {α : Type} {m : List (String × α)} {k : String} {v : α} {p : String × α}
    (h : p ∈ mapSet m k v) : p = (k, v) ∨ p ∈ m := by
  induction m with
  | nil => simp [mapSet] at h; left; exact h
  | cons q rest ih =>
      obtain ⟨k1, v1⟩ := q
      by_cases hk : k1 = k
      · simp [mapSet, hk] at h
        rcases h with h | h
        · left; exact h
        · right; exact List.mem_cons_of_mem _ h
      · simp only [mapSet, if_neg hk, List.mem_cons] at h
        rcases h with h | h
        · right; exact h ▸ List.mem_cons_self _ _
        · rcases ih h with h2 | h2
          · left; exact h2
          · right; exact List.mem_cons_of_mem _ h2

theorem mapGet_update_map (j : Jukebox) (time : ℚ) (gainObs : String → ℚ)
    (endedObs : String → Bool) (k : String) :
    mapGet (j.update time gainObs endedObs).streams k
      = (mapGet j.streams k).map
          (fun s => updateStreamTick j.volume time s (gainObs k) (endedObs k)) := by
  show mapGet (j.streams.map _) k = _
  induction j.streams with
  | nil => simp [mapGet]
  | cons p rest ih =>
      obtain ⟨k1, v1⟩ := p
      by_cases h : k1 = k
      · subst h; simp [mapGet]
      · simp [mapGet, h, ih]

/-! ## Claim theorems -/

/-- C9: for every registered stream whose track queue is empty, `update()`
is a no-op with respect to that stream — the per-stream body returns the
stream unchanged, and after a full `update()` the stream is still
registered under its name with identical state; no exception is
possible (`update` is a total function). -/
theorem C9_update_empty_stream_noop (jv time g time2 : ℚ) (e : Bool) (s : AudioStream)
    (j : Jukebox) (n : String) (gainObs : String → ℚ) (endedObs : String → Bool)
    (h : s.tracks = []) (hs : j.getStream n = some s) :
    updateStreamTick jv time s g e = s
    ∧ (j.update time2 gainObs endedObs).getStream n = some s := by
  have h1 : ∀ jv2 t2 g2 e2, updateStreamTick jv2 t2 s g2 e2 = s := by
    intro jv2 t2 g2 e2
    unfold updateStreamTick
    rw [h]
  refine ⟨h1 jv time g e, ?_⟩
  rw [Jukebox.getStream, mapGet_update_map]
  rw [Jukebox.getStream] at hs
  rw [hs]
  simp only [Option.map_some']
  rw [h1]

/-- C9 witness: the empty stream `"s"` of `jEmptyStream` is untouched by
an update tick. -/
theorem C9_witness :
    updateStreamTick 1 0 streamEmpty 0 false = streamEmpty
    ∧ (jEmptyStream.update 0 (fun u => 0) (fun u => false)).getStream "s" = some streamEmpty :=
  C9_update_empty_stream_noop 1 0 0 0 false streamEmpty jEmptyStream "s"
    (fun u => 0) (fun u => false) rfl rfl

/-- C10: `getStream(name)` returns the registered stream exactly when the
name is registered (in the sense of the `Map.has` check used by
`queueStream`) and `none` otherwise; it is a total pure function — it
cannot throw and does not touch the engine state. -/
theorem C10_getStream_total (j : Jukebox) (n : String) :
    ((j.getStream n).isSome = mapHas j.streams n)
    ∧ (mapHas j.streams n = false → j.getStream n = none)
    ∧ (∀ s, j.getStream n = some s → (n, s) ∈ j.streams) := by
  refine ⟨?_, ?_, ?_⟩
  · rw [Jukebox.getStream, mapHas_eq_isSome]
  · exact fun h => mapGet_eq_none_of_has_false h
  · exact fun s h => mem_of_mapGet_eq_some h

/-- C10 witness: on `jEmptyStream`, a missing name yields `none` and the
registered name yields the registered stream object. -/
theorem C10_witness :
    jEmptyStream.getStream "missing" = none
    ∧ ("s", streamEmpty) ∈ jEmptyStream.streams :=
  ⟨(C10_getStream_total jEmptyStream "missing").2.1 (by rfl),
   (C10_getStream_total jEmptyStream "s").2.2 streamEmpty (by rfl)⟩

/-- C6: on an unregistered stream name, `queueStream`, `skipStream` and
`clearStream` each return the unregistered-stream error synchronously
and leave the whole engine state unchanged (the returned state is the
input state itself). -/
theorem C6_unregistered_name_throws (j : Jukebox) (n url : String) (v f fo t g : ℚ)
    (l : Int) (p : Vec2D) (h : mapHas j.streams n = false) :
    j.queueStream n url v f l p = (j, .error (streamMissingMsg n))
    ∧ j.skipStream n fo t g = (j, .error (streamMissingMsg n))
    ∧ j.clearStream n fo t g = (j, .error (streamMissingMsg n)) := by
  have hg : mapGet j.streams n = none := mapGet_eq_none_of_has_false h
  refine ⟨?_, ?_, ?_⟩
  · unfold Jukebox.queueStream
    rw [h]
    simp
  · unfold Jukebox.skipStream
    rw [hg]
  · unfold Jukebox.clearStream
    rw [hg]

/-- C6 witness: the three calls on the name `"missing"` all fail with the
unregistered-stream error and return `jb3` unchanged. -/
theorem C6_witness :
    jb3.queueStream "missing" "u" 1 0 0 { x := 0, y := 0 }
        = (jb3, .error (streamMissingMsg "missing"))
    ∧ jb3.skipStream "missing" 1 0 0 = (jb3, .error (streamMissingMsg "missing"))
    ∧ jb3.clearStream "missing" 1 0 0 = (jb3, .error (streamMissingMsg "missing")) :=
  C6_unregistered_name_throws jb3 "missing" "u" 1 0 1 0 0 0 { x := 0, y := 0 } (by rfl)

/-- C2 (evidence for the code bug): with the nonempty path prefix
`"assets/"`, `playSound("boom.mp3", ...)` on a cache miss calls
`loadSound` with the *already resolved* path `"assets/boom.mp3"`; that
load re-resolves and stores the decoded buffer under
`"assets/assets/boom.mp3"`, which is NOT the key the next `playSound`
looks up — so the second invocation after load completion still misses
and re-triggers the load instead of creating and starting a node
graph. -/
theorem C2_doubled_cache_key :
    Jukebox.playSound c2Jukebox "boom.mp3" 1 { x := 0, y := 0 }
        = .loadTriggered "assets/boom.mp3"
    ∧ (c2Jukebox.completeLoad "assets/boom.mp3" { id := 0 }).sounds
        = [("assets/assets/boom.mp3", { id := 0 })]
    ∧ Jukebox.playSound (c2Jukebox.completeLoad "assets/boom.mp3" { id := 0 }) "boom.mp3" 1
          { x := 0, y := 0 }
        = .loadTriggered "assets/boom.mp3" :=
  ⟨rfl, rfl, rfl⟩

/-- C3 (evidence for the code bug): when the skipped head (sampled gain
0) is shifted off the queue, the JS variable `current` still aliases the
removed track, so the natural-end branch re-fires on it: with
`current.media.ended == true` and `loops == 0` the queue is shifted a
*second* time in the same tick, silently dropping the next, never-started
track. With `ended == false` only the head is removed, as the claim
expects. -/
theorem C3_double_shift_same_tick :
    (updateStreamTick 1 0 skPairStream 0 true).tracks = []
    ∧ (updateStreamTick 1 0 skPairStream 0 false).tracks = [dormantTrack "b"] :=
  ⟨rfl, rfl⟩

/-- Helper: `skipStream` on a registered stream with a nonempty queue
marks the head skipped, pins the sampled gain value, and replaces any
pending ramps by the single fade-out ramp to 0 at `time + fadeout`. -/
theorem skipStream_cons (j : Jukebox) (n : String) (f t g : ℚ) (s : AudioStream)
    (c : AudioTrack) (rest : List AudioTrack)
    (hs : mapGet j.streams n = some s) (htr : s.tracks = c :: rest) :
    j.skipStream n f t g
      = ({ j with streams := (mapSet j.streams n
            ({ s with tracks := ({ c with
                skipped := true
                gainNode := { value := g, ramps := [(0, t + f)] } } :: rest) })) },
         Except.ok ()) := by
  simp only [Jukebox.skipStream, hs, htr]
  rfl

/-- C1 counterexample: on a stream with 3 queued tracks, `clearStream`
leaves the queue with length 0 *immediately* — the head track does not
stay in the queue fading until `update()` dequeues it, contradicting the
claim (which predicts queue length 1, the fading head, right after the
call). The sampled gain at call time is 1/2, so the head's fade-out has
certainly not completed when it is dropped. -/
theorem C1_counterexample :
    (jb3.getStream "s").map (fun s => s.tracks.length) = some 3
    ∧ ((jb3.clearStream "s" 1 0 (1/2)).1.getStream "s").map (fun s => s.tracks.length)
        = some 0 :=
  ⟨rfl, rfl⟩

/-- C1 (amended): `clearStream(name, fadeOut)` on a registered stream
with a nonempty queue performs `skipStream` on the head (marking it
skipped and scheduling its fade-out ramp to 0) and then immediately and
unconditionally removes *every* track including the head: the queue
length is 0 as soon as the call returns, and `update()` never dequeues
(or pauses) the head track. -/
theorem C1_clearStream_empties_whole_queue (j : Jukebox) (n : String) (f t g : ℚ)
    (s : AudioStream) (c : AudioTrack) (rest : List AudioTrack)
    (hs : j.getStream n = some s) (htr : s.tracks = c :: rest) :
    (j.clearStream n f t g).1
      = { j with streams := mapSet j.streams n ({ s with tracks := [] }) }
    ∧ (j.skipStream n f t g).1.getStream n
        = some ({ s with tracks := ({ c with
            skipped := true
            gainNode := { value := g, ramps := [(0, t + f)] } } :: rest) })
    ∧ (j.clearStream n f t g).2 = .ok () := by
  rw [Jukebox.getStream] at hs
  have hskip := skipStream_cons j n f t g s c rest hs htr
  have hclear : j.clearStream n f t g
      = ({ j with streams := mapSet j.streams n ({ s with tracks := [] }) }, .ok ()) := by
    unfold Jukebox.clearStream
    rw [hs]
    simp only [hskip, mapGet_mapSet_self, mapSet_mapSet]
  refine ⟨?_, ?_, ?_⟩
  · rw [hclear]
  · rw [Jukebox.getStream, hskip]
    exact mapGet_mapSet_self j.streams n _
  · rw [hclear]

/-- C1 witness: at the concrete 3-track stream `streamABC` of `jb3`,
clearing yields exactly the emptied-queue state. -/
theorem C1_witness :
    (jb3.clearStream "s" 1 0 (1/2)).1
      = { jb3 with streams := mapSet jb3.streams "s" ({ streamABC with tracks := [] }) } :=
  (C1_clearStream_empties_whole_queue jb3 "s" 1 0 (1/2) streamABC activeTrack
    [dormantTrack "b", dormantTrack "c"] rfl rfl).1

/-- C7: calling `skipStream` twice in succession (same head, no
intervening update, so the second call reads back the same sampled gain
value) is idempotent: the second call pins the already-fading value and
re-schedules a single ramp to 0, leaving exactly the state of a single
call — skipped head, one pending ramp targeting 0 at `t + f`. -/
theorem C7_skipStream_idempotent (j : Jukebox) (n : String) (f t g : ℚ)
    (s : AudioStream) (c : AudioTrack) (rest : List AudioTrack)
    (hs : j.getStream n = some s) (htr : s.tracks = c :: rest) :
    ((j.skipStream n f t g).1.skipStream n f t g).1 = (j.skipStream n f t g).1
    ∧ ((j.skipStream n f t g).1.skipStream n f t g).1.getStream n
        = some ({ s with tracks := ({ c with
            skipped := true
            gainNode := { value := g, ramps := [(0, t + f)] } } :: rest) }) := by
  rw [Jukebox.getStream] at hs
  have h1 := skipStream_cons j n f t g s c rest hs htr
  have hget1 : mapGet (j.skipStream n f t g).1.streams n
      = some ({ s with tracks := ({ c with
          skipped := true
          gainNode := { value := g, ramps := [(0, t + f)] } } :: rest) }) := by
    rw [h1]
    exact mapGet_mapSet_self j.streams n _
  have h2 := skipStream_cons (j.skipStream n f t g).1 n f t g _ _ rest hget1 rfl
  have hsame : ((j.skipStream n f t g).1.skipStream n f t g).1 = (j.skipStream n f t g).1 := by
    rw [h2, h1]
    simp only [mapSet_mapSet]
  refine ⟨hsame, ?_⟩
  rw [Jukebox.getStream, hsame]
  exact hget1

/-- C7 witness: double skip on `jb3` equals single skip. -/
theorem C7_witness :
    ((jb3.skipStream "s" 1 0 (1/2)).1.skipStream "s" 1 0 (1/2)).1
      = (jb3.skipStream "s" 1 0 (1/2)).1 :=
  (C7_skipStream_idempotent jb3 "s" 1 0 (1/2) streamABC activeTrack
    [dormantTrack "b", dormantTrack "c"] rfl rfl).1

/-- C5: when `update()` starts or restarts a head track
(`started == false`), it pins the gain to 0 and schedules a linear ramp
whose target is exactly `track.settings.volume * jukebox.volume *
stream.volume` as read at that instant, ending at `time + fadeIn`.
Assigning `jukebox.volume` or `stream.volume` afterwards only writes
those fields: no stream (hence no track, hence no already-scheduled
ramp) is rewritten — only the next start or loop-restart reads the new
values. -/
theorem C5_start_schedules_product (jv t g v w : ℚ) (s : AudioStream)
    (c : AudioTrack) (rest : List AudioTrack) (j : Jukebox)
    (htr : s.tracks = c :: rest) (hstart : c.start = false) (hskip : c.skipped = false) :
    (updateStreamTick jv t s g false).tracks
      = ({ c with
          pannerPos := c.settings.position
          start := true
          media := { c.media with playing := true }
          gainNode :=
            { value := 0
              ramps := (c.gainNode.ramps
                ++ [(c.settings.volume * jv * s.volume, t + c.fadein)]) } } :: rest)
    ∧ (j.setVolume v).streams = j.streams
    ∧ (s.setVolume w).tracks = s.tracks := by
  refine ⟨?_, rfl, rfl⟩
  obtain ⟨cm, cl, cf, cst, csk, cpm, cpp, cg, cse⟩ := c
  dsimp only at hstart hskip
  subst hstart
  subst hskip
  simp only [updateStreamTick, htr]
  rfl

/-- C5 witness: the never-started head of `startStream` gets a ramp to
`1 * (1/3) * (1/2)` ending at `5 + 0`. -/
theorem C5_witness :
    (updateStreamTick (1/3) 5 startStream 0 false).tracks
      = ({ dormantTrack "b" with
          pannerPos := (dormantTrack "b").settings.position
          start := true
          media := { (dormantTrack "b").media with playing := true }
          gainNode :=
            { value := 0
              ramps := ((dormantTrack "b").gainNode.ramps
                ++ [((dormantTrack "b").settings.volume * (1/3) * startStream.volume,
                     5 + (dormantTrack "b").fadein)]) } } :: [])
    ∧ (Jukebox.init.setVolume 2).streams = Jukebox.init.streams
    ∧ (startStream.setVolume 2).tracks = startStream.tracks :=
  C5_start_schedules_product (1/3) 5 0 2 2 startStream (dormantTrack "b") []
    Jukebox.init rfl rfl rfl

/-- C4: natural end of a steadily playing, unskipped head track: if
`loops != 0` the loop counter is decremented path-independently and the
track stays at the head with `start` reset to `false` (so it restarts on
the next tick); if `loops == 0` the track is removed. A track with
`loops = -1` stays at the head with `loops = -2 ≠ 0`, so the natural-end
check can never remove it on any later tick either. -/
theorem C4_natural_end_loops (jv t g : ℚ) (s : AudioStream) (c : AudioTrack)
    (rest : List AudioTrack) (htr : s.tracks = c :: rest)
    (hstart : c.start = true) (hskip : c.skipped = false) :
    (c.loops ≠ 0 →
      (updateStreamTick jv t s g true).tracks
        = ({ c with pannerPos := c.settings.position, start := false, loops := c.loops - 1 }
            :: rest))
    ∧ (c.loops = 0 → (updateStreamTick jv t s g true).tracks = rest)
    ∧ (c.loops = -1 →
      ((updateStreamTick jv t s g true).tracks
        = ({ c with pannerPos := c.settings.position, start := false, loops := -2 } :: rest))
      ∧ ((-2 : Int) ≠ 0)) := by
  obtain ⟨cm, cl, cf, cst, csk, cpm, cpp, cg, cse⟩ := c
  dsimp only at hstart hskip
  subst hstart
  subst hskip
  refine ⟨?_, ?_, ?_⟩
  · intro hl
    simp [updateStreamTick, htr, hl]
  · intro hl
    subst hl
    simp [updateStreamTick, htr]
  · intro hl
    subst hl
    refine ⟨?_, by decide⟩
    simp [updateStreamTick, htr]

/-- C4 witness: a head with `loops = 2` survives an `ended` tick, staying
queued with `loops = 1` and `start = false`. -/
theorem C4_witness :
    (updateStreamTick 1 0 loopStream (1/2) true).tracks
      = ({ loopTrack with
          pannerPos := loopTrack.settings.position
          start := false
          loops := 1 } :: []) :=
  (C4_natural_end_loops 1 0 (1/2) loopStream loopTrack [] rfl rfl rfl).1 (by decide)

/-- Helper: appending a dormant track preserves tail-dormancy. -/
theorem streamTailDormant_push {s : AudioStream} {a : AudioTrack}
    (h : streamTailDormant s) (ha : isDormant a) :
    streamTailDormant { s with tracks := s.tracks ++ [a] } := by
  show ∀ tr ∈ (s.tracks ++ [a]).tail, isDormant tr
  cases hts : s.tracks with
  | nil =>
      intro tr htr
      simp at htr
  | cons b l =>
      intro tr htr
      rw [List.cons_append, List.tail_cons] at htr
      rcases List.mem_append.mp htr with h1 | h1
      · refine h tr ?_
        rw [hts]
        exact h1
      · rw [List.mem_singleton] at h1
        rw [h1]
        exact ha

/-- Helper: one update tick preserves tail-dormancy — every branch of the
per-stream body leaves a queue whose tail is a sub-list of the old tail. -/
theorem streamTailDormant_updateStreamTick (jv t g : ℚ) (e : Bool) {s : AudioStream}
    (h : streamTailDormant s) :
    streamTailDormant (updateStreamTick jv t s g e) := by
  unfold updateStreamTick
  cases hts : s.tracks with
  | nil => exact h
  | cons c rest =>
      have hrest : ∀ tr ∈ rest, isDormant tr := fun tr htr =>
        h tr (by rw [hts]; exact htr)
      dsimp only
      repeat' split
      all_goals intro tr htr
      all_goals first
        | exact hrest tr htr
        | exact hrest tr (List.mem_of_mem_tail htr)
        | exact hrest tr (List.mem_of_mem_tail (List.mem_of_mem_tail htr))

/-- Helper: rebinding one stream name to a tail-dormant stream keeps the
jukebox-wide invariant. -/
theorem jukeboxTailDormant_mapSet {j : Jukebox} {n : String} {sE : AudioStream}
    (h : jukeboxTailDormant j) (hE : streamTailDormant sE) :
    jukeboxTailDormant { j with streams := mapSet j.streams n sE } := by
  intro p hp
  rcases mem_mapSet hp with h1 | h1
  · rw [h1]
    exact hE
  · exact h p h1

/-- Helper: an empty queue is trivially tail-dormant. -/
theorem streamTailDormant_of_tracks_nil {s : AudioStream} (hts : s.tracks = []) :
    streamTailDormant s := by
  intro tr htr
  rw [hts] at htr
  simp at htr

/-- Helper: replacing only the head keeps the tail dormant. -/
theorem streamTailDormant_replaceHead {s : AudioStream} {c c2 : AudioTrack}
    {rest : List AudioTrack} (hts : s.tracks = c :: rest) (h : streamTailDormant s) :
    streamTailDormant { s with tracks := c2 :: rest } := by
  intro tr htr
  exact h tr (by rw [hts]; exact htr)

/-- Helper: `createStream` preserves the tail-dormancy invariant. -/
theorem jukeboxTailDormant_createStream {j : Jukebox} (n : String)
    (h : jukeboxTailDormant j) : jukeboxTailDormant (j.createStream n) :=
  jukeboxTailDormant_mapSet h (streamTailDormant_of_tracks_nil rfl)

/-- Helper: `queueStream` preserves the tail-dormancy invariant (the
appended track is exactly a dormant track). -/
theorem jukeboxTailDormant_queueStream {j : Jukebox} (n url : String) (v f : ℚ)
    (l : Int) (pos : Vec2D) (h : jukeboxTailDormant j) :
    jukeboxTailDormant (j.queueStream n url v f l pos).1 := by
  cases hg : mapGet j.streams n with
  | none =>
      have hh : mapHas j.streams n = false := by
        rw [mapHas_eq_isSome, hg]
        rfl
      have heq : (j.queueStream n url v f l pos).1 = j := by
        simp [Jukebox.queueStream, hh]
      rw [heq]
      exact h
  | some s =>
      have hh : mapHas j.streams n = true := by
        rw [mapHas_eq_isSome, hg]
        rfl
      have heq : (j.queueStream n url v f l pos).1
          = { j with streams := (mapSet j.streams n
              ({ s with tracks := (s.tracks ++
                [{ media := { src := j.pathPre ++ url, playing := false }
                   loops := l
                   fadein := f
                   start := false
                   skipped := false
                   pannerMaxDistance := j.maxDistance
                   pannerPos := { x := 0, y := 0 }
                   gainNode := GainParam.init
                   settings := { volume := v, position := pos } }]) })) } := by
        simp [Jukebox.queueStream, hh, hg]
      rw [heq]
      exact jukeboxTailDormant_mapSet h
        (streamTailDormant_push (h (n, s) (mem_of_mapGet_eq_some hg)) ⟨rfl, rfl, rfl, rfl⟩)

/-- Helper: `skipStream` preserves the tail-dormancy invariant (only the
head track is rewritten; the tail is untouched). -/
theorem jukeboxTailDormant_skipStream {j : Jukebox} (n : String) (f t g : ℚ)
    (h : jukeboxTailDormant j) : jukeboxTailDormant (j.skipStream n f t g).1 := by
  cases hg : mapGet j.streams n with
  | none =>
      have heq : (j.skipStream n f t g).1 = j := by
        simp [Jukebox.skipStream, hg]
      rw [heq]
      exact h
  | some s =>
      cases hts : s.tracks with
      | nil =>
          have heq : (j.skipStream n f t g).1 = j := by
            simp [Jukebox.skipStream, hg, hts]
          rw [heq]
          exact h
      | cons c rest =>
          rw [skipStream_cons j n f t g s c rest hg hts]
          exact jukeboxTailDormant_mapSet h
            (streamTailDormant_replaceHead hts (h (n, s) (mem_of_mapGet_eq_some hg)))

/-- Helper: `clearStream` preserves the tail-dormancy invariant (the
emptied queue has an empty tail). -/
theorem jukeboxTailDormant_clearStream {j : Jukebox} (n : String) (f t g : ℚ)
    (h : jukeboxTailDormant j) : jukeboxTailDormant (j.clearStream n f t g).1 := by
  cases hg : mapGet j.streams n with
  | none =>
      have heq : (j.clearStream n f t g).1 = j := by
        simp [Jukebox.clearStream, hg]
      rw [heq]
      exact h
  | some s =>
      have hskipInv := jukeboxTailDormant_skipStream n f t g h
      cases hg2 : mapGet (j.skipStream n f t g).1.streams n with
      | none =>
          have heq : (j.clearStream n f t g).1 = (j.skipStream n f t g).1 := by
            simp [Jukebox.clearStream, hg, hg2]
          rw [heq]
          exact hskipInv
      | some s1 =>
          have heq : (j.clearStream n f t g).1
              = { (j.skipStream n f t g).1 with
                  streams := (mapSet (j.skipStream n f t g).1.streams n
                    ({ s1 with tracks := [] })) } := by
            simp [Jukebox.clearStream, hg, hg2]
          rw [heq]
          exact jukeboxTailDormant_mapSet hskipInv (streamTailDormant_of_tracks_nil rfl)

/-- Helper: a full `update()` preserves the tail-dormancy invariant. -/
theorem jukeboxTailDormant_update {j : Jukebox} (t : ℚ) (go : String → ℚ)
    (eo : String → Bool) (h : jukeboxTailDormant j) :
    jukeboxTailDormant (j.update t go eo) := by
  intro p hp
  rcases List.mem_map.mp hp with ⟨q, hq, hqe⟩
  rw [← hqe]
  exact streamTailDormant_updateStreamTick _ _ _ _ (h q hq)

/-- Helper: every single engine call preserves the invariant. -/
theorem jukeboxTailDormant_apply {j : Jukebox} (op : JukeOp)
    (h : jukeboxTailDormant j) : jukeboxTailDormant (JukeOp.apply j op) := by
  cases op with
  | createStream n => exact jukeboxTailDormant_createStream n h
  | queueStream n u v f l pos => exact jukeboxTailDormant_queueStream n u v f l pos h
  | skipStream n f t g => exact jukeboxTailDormant_skipStream n f t g h
  | clearStream n f t g => exact jukeboxTailDormant_clearStream n f t g h
  | update t go eo => exact jukeboxTailDormant_update t go eo h

/-- Helper: the invariant holds along any call sequence. -/
theorem jukeboxTailDormant_runOps (ops : List JukeOp) {j : Jukebox}
    (h : jukeboxTailDormant j) : jukeboxTailDormant (runOps ops j) := by
  induction ops generalizing j with
  | nil => exact h
  | cons op rest ih => exact ih (jukeboxTailDormant_apply op h)

/-- Helper: a stream with a dormant tail has at most one started track. -/
theorem countP_start_le_one {s : AudioStream} (h : streamTailDormant s) :
    List.countP (fun tr => tr.start) s.tracks ≤ 1 := by
  cases hts : s.tracks with
  | nil => simp
  | cons c rest =>
      have hrest : List.countP (fun tr => tr.start) rest = 0 := by
        rw [List.countP_eq_zero]
        intro tr htr
        have hd := h tr (by rw [hts]; exact htr)
        simp [hd.1]
      rw [List.countP_cons, hrest]
      by_cases hc : c.start = true
      · simp [hc]
      · simp [hc]

/-- C8: in every state reachable from a fresh engine by any sequence of
`createStream`, `queueStream`, `skipStream`, `clearStream` and `update`
calls, every registered stream has at most one started (active) track,
and every track behind the head is dormant: `start = false`,
`skipped = false`, its media never played and its gain node untouched. -/
theorem C8_reachable_tail_dormant (ops : List JukeOp) (n : String) (s : AudioStream)
    (hs : mapGet (runOps ops Jukebox.init).streams n = some s) :
    streamTailDormant s
    ∧ List.countP (fun tr => tr.start) s.tracks ≤ 1
    ∧ ∀ tr ∈ s.tracks.tail, tr.start = false ∧ tr.skipped = false := by
  have hinit : jukeboxTailDormant Jukebox.init := by
    intro p hp
    simp [Jukebox.init] at hp
  have hinv := jukeboxTailDormant_runOps ops hinit
  have hsd : streamTailDormant s := hinv (n, s) (mem_of_mapGet_eq_some hs)
  exact ⟨hsd, countP_start_le_one hsd,
    fun tr htr => ⟨(hsd tr htr).1, (hsd tr htr).2.1⟩⟩

/-- C8 witness: after creating `"s"`, queueing two tracks and one update
tick, the reachable stream `streamW` has at most one started track. -/
theorem C8_witness :
    mapGet (runOps opsW Jukebox.init).streams "s" = some streamW
    ∧ List.countP (fun tr => tr.start) streamW.tracks ≤ 1 :=
  ⟨by rfl, (C8_reachable_tail_dormant opsW "s" streamW (by rfl)).2.1⟩
